import Mathlib

/-!
Shallow embedding of the cleanmypc cleanup engine.

Strings are modelled as `List Char` (`Str`) so that the substring,
path-separator and glob operations of the source can be reasoned about
directly.  The filesystem is modelled flatly: a finite list of
(absolute path, metadata) file entries plus a list of (absolute path,
removable-flag) directory entries; a path `q` lies inside a directory
`d` iff `d ++ "/"` is a prefix of `q`.  Recursions of the source that
are not structurally decreasing (the glob matcher, the unique-name
probe loop, the large-file tree walk) are given an explicit fuel
parameter so that every definition is executable and kernel-reducible;
theorems that need the recursion to run to completion carry an explicit
fuel-sufficiency hypothesis.
-/

abbrev Str := List Char

/-- JavaScript `hay.includes(sub)`: substring containment test. -/
def strIncludes : Str → Str → Bool
  | [], sub => sub.isEmpty
  | c :: t, sub => sub.isPrefixOf (c :: t) || strIncludes t sub

/-- `name.startsWith "."`: the hidden-file marker test. -/
def startsWithDot : Str → Bool
  | [] => false
  | c :: _ => c == '.'

/-- `s.toLowerCase()`. -/
def toLowerStr (s : Str) : Str := s.map Char.toLower

/-- `pattern.replace(/\\/g, '/')`: backslash-to-slash normalization
applied by `BaseCleaner.findFiles` before handing patterns to the glob
engine. -/
def normalizeSlashes (s : Str) : Str :=
  s.map (fun c => if c == '\\' then '/' else c)

/-- `path.join(p, n)` for the posix paths used throughout the model. -/
def joinP (p n : Str) : Str := p ++ '/' :: n

/-- Split a path into its `/`-separated segments (an absolute path
yields a leading empty segment). -/
def splitSlash : Str → List Str
  | [] => [[]]
  | '/' :: cs => [] :: splitSlash cs
  | c :: cs =>
    match splitSlash cs with
    | [] => [[c]]
    | seg :: rest => (c :: seg) :: rest

/-- Glob matching of one pattern segment against one path segment,
`*` matching any run of characters.  The fuel makes the recursion
structural; `pat.length + s.length + 1` always suffices. -/
def matchChars : Nat → Str → Str → Bool
  | 0, _, _ => false
  | fuel + 1, pat, s =>
    match pat, s with
    | [], [] => true
    | [], _ :: _ => false
    | '*' :: ps, [] => matchChars fuel ps []
    | '*' :: ps, c :: t => matchChars fuel ps (c :: t) || matchChars fuel ('*' :: ps) t
    | _ :: _, [] => false
    | p :: ps, c :: t => p == c && matchChars fuel ps t

/-- Segment match with the glob engine's default `dot:false` rule: a
leading dot in the path segment is only matched by a literal leading
dot in the pattern. -/
def segMatch (pat seg : Str) : Bool :=
  if startsWithDot seg then
    startsWithDot pat && matchChars (pat.length + seg.length + 1) pat seg
  else matchChars (pat.length + seg.length + 1) pat seg

/-- Glob matching of a segment-split pattern against a segment-split
path.  `**` crosses directory levels; trailing `**` matches one or more
further (non-hidden) segments, as the glob engine enumerates strictly
below the pattern's static base. -/
def matchSegs : Nat → List Str → List Str → Bool
  | 0, _, _ => false
  | fuel + 1, pat, segs =>
    match pat, segs with
    | [], [] => true
    | [], _ :: _ => false
    | p :: ps, segs =>
      if p == "**".toList then
        match ps, segs with
        | [], rest => !rest.isEmpty && rest.all (fun s => !startsWithDot s)
        | _ :: _, [] => matchSegs fuel ps []
        | _ :: _, s :: rest =>
          matchSegs fuel ps segs || (!startsWithDot s && matchSegs fuel (p :: ps) rest)
      else
        match segs with
        | [] => false
        | s :: rest => segMatch p s && matchSegs fuel ps rest

/-- Whole-path glob match, as the glob engine applies both inclusion
patterns and `ignore` patterns: the pattern is matched against the
whole path, segment by segment. -/
def globMatch (pat path : Str) : Bool :=
  let ps := splitSlash pat
  let ss := splitSlash path
  matchSegs (ps.length + ss.length + 1) ps ss

/-- Metadata of one regular file: byte size, write permission, and
modification time in milliseconds since the epoch. -/
structure FileMeta where
  size : Nat
  writable : Bool
  mtimeMs : Int
deriving Repr, DecidableEq

/-- Flat filesystem model: absolute-path file entries and
(absolute path, removable) directory entries. -/
structure Fs where
  files : List (Str × FileMeta)
  dirs : List (Str × Bool)
deriving Repr, DecidableEq

def lookupFile (fs : Fs) (p : Str) : Option FileMeta :=
  (fs.files.find? (fun e => e.1 == p)).map (fun e => e.2)

def fileExists (fs : Fs) (p : Str) : Bool := (lookupFile fs p).isSome

def dirExists (fs : Fs) (p : Str) : Bool := fs.dirs.any (fun d => d.1 == p)

/-- `fs.access(path)`-based existence test (`BaseCleaner.pathExists`):
true for files and for directories. -/
def pathExists (fs : Fs) (p : Str) : Bool := fileExists fs p || dirExists fs p

/-- `q` lies strictly inside directory `d`. -/
def underDir (d q : Str) : Bool := (d ++ ['/']).isPrefixOf q

/-- `fs.remove(p)`: removes `p` and everything beneath it (a no-op when
`p` does not exist). -/
def removePath (fs : Fs) (p : Str) : Fs :=
  ⟨fs.files.filter (fun e => !(e.1 == p || underDir p e.1)),
   fs.dirs.filter (fun d => !(d.1 == p || underDir p d.1))⟩

/-- `BaseCleaner.getFileSize`: `fs.stat` size with fallback 0 when the
stat fails (nonexistent path). -/
def getFileSize (fs : Fs) (p : Str) : Nat :=
  match lookupFile fs p with
  | some m => m.size
  | none => 0

/-- `BaseCleaner.getDirectorySize`: recursive walk summing every
contained file's size (errors collapse to 0; in the flat model this is
the sum over all file entries beneath the directory). -/
def getDirectorySize (fs : Fs) (p : Str) : Nat :=
  (fs.files.filter (fun e => underDir p e.1)).foldl (fun a e => a + e.2.size) 0

def deleteFileErr (p : Str) : Str := "Failed to delete ".toList ++ p

def deleteDirErr (p : Str) : Str := "Failed to delete directory ".toList ++ p

structure DelRes where
  deleted : Bool
  size : Nat
deriving Repr, DecidableEq

/-- Output of a deletion primitive: the filesystem after the call, the
`{deleted, size}` result, and the cleaner's error list after the call. -/
structure DelOut where
  fs : Fs
  res : DelRes
  errors : List Str
deriving Repr, DecidableEq

/-- `BaseCleaner.deleteFile`: read the size first; under dry-run return
`{deleted:true}` with that size and no I/O; on a live run verify write
access (which fails for a nonexistent or non-writable file) and remove;
any failure yields `{deleted:false, size:0}` plus one pushed error. -/
def deleteFile (dryRun : Bool) (fs : Fs) (errors : List Str) (filePath : Str) : DelOut :=
  let size := getFileSize fs filePath
  if dryRun then ⟨fs, ⟨true, size⟩, errors⟩
  else
    match lookupFile fs filePath with
    | some m =>
      if m.writable then ⟨removePath fs filePath, ⟨true, size⟩, errors⟩
      else ⟨fs, ⟨false, 0⟩, errors ++ [deleteFileErr filePath]⟩
    | none => ⟨fs, ⟨false, 0⟩, errors ++ [deleteFileErr filePath]⟩

/-- `BaseCleaner.deleteDirectory`: compute the recursive size first;
under dry-run perform no I/O; on a live run `fs.remove` the subtree
(a no-op success when the path does not exist, a failure when the
directory is not removable). -/
def deleteDirectory (dryRun : Bool) (fs : Fs) (errors : List Str) (dirPath : Str) : DelOut :=
  let size := getDirectorySize fs dirPath
  if dryRun then ⟨fs, ⟨true, size⟩, errors⟩
  else
    match fs.dirs.find? (fun d => d.1 == dirPath) with
    | some d =>
      if d.2 then ⟨removePath fs dirPath, ⟨true, size⟩, errors⟩
      else ⟨fs, ⟨false, 0⟩, errors ++ [deleteDirErr dirPath]⟩
    | none => ⟨removePath fs dirPath, ⟨true, size⟩, errors⟩

structure Browsers where
  chrome : Bool
  firefox : Bool
  edge : Bool
  safari : Bool
deriving Repr, DecidableEq

structure OrganizeDownloads where
  enabled : Bool
  categories : List (Str × List Str)
deriving Repr, DecidableEq

/-- `CleanupConfig` of ConfigManager, with the category map as an
ordered association list (JavaScript object-insertion order). -/
structure CleanupConfig where
  largeFileThreshold : Nat
  customTempPaths : List Str
  customCachePaths : List Str
  downloadsPath : Str
  exclusions : List Str
  browsers : Browsers
  organizeDownloads : OrganizeDownloads
  confirmDeletions : Bool
  backupBeforeDelete : Bool
  maxFileAge : Nat
deriving Repr, DecidableEq

inductive OSType where
  | windows
  | macos
  | linux
deriving Repr, DecidableEq

/-- `BaseCleaner.findFiles`: normalize backslashes in the patterns and
in both exclude lists, then glob with `ignore` = excludes plus the
configuration's exclusions, returning matching file paths only.  The
`ignore` entries are glob patterns matched against the whole path —
not substrings. -/
def findFiles (cfg : CleanupConfig) (fs : Fs) (patterns excludePatterns : List Str) : List Str :=
  let nPats := patterns.map normalizeSlashes
  let nEx := excludePatterns.map normalizeSlashes ++ cfg.exclusions.map normalizeSlashes
  (fs.files.map (fun e => e.1)).filter
    (fun p => nPats.any (fun pat => globMatch pat p) && !(nEx.any (fun pat => globMatch pat p)))

/-- `BaseCleaner.findDirectories`: same shape but without the
backslash normalization (the source omits it here) and returning
directory paths only. -/
def findDirectories (cfg : CleanupConfig) (fs : Fs) (patterns excludePatterns : List Str) : List Str :=
  let ex := excludePatterns ++ cfg.exclusions
  (fs.dirs.map (fun d => d.1)).filter
    (fun p => patterns.any (fun pat => globMatch pat p) && !(ex.any (fun pat => globMatch pat p)))

/-- `BaseCleaner.isFileOldEnough`: age 0 admits everything; otherwise
admit iff `now - mtime` strictly exceeds the age converted to
milliseconds; a failing stat (nonexistent file) yields false. -/
def isFileOldEnough (fs : Fs) (now : Int) (filePath : Str) (maxAgeInDays : Nat) : Bool :=
  if maxAgeInDays == 0 then true
  else
    match lookupFile fs filePath with
    | some m => decide (now - m.mtimeMs > (maxAgeInDays : Int) * (24 * 60 * 60 * 1000))
    | none => false

/-- `readdir(dirPath).length === 0` with failures mapped to false. -/
def isChildName (d q : Str) : Bool :=
  underDir d q && !((q.drop (d.length + 1)).contains '/')

def isDirectoryEmpty (fs : Fs) (dirPath : Str) : Bool :=
  dirExists fs dirPath &&
    fs.files.all (fun e => !isChildName dirPath e.1) &&
    fs.dirs.all (fun d => !isChildName dirPath d.1)

/-- Result record of one task (`CleanupResult` of CleanupManager). -/
structure CleanupResult where
  task : Str
  filesDeleted : Nat
  spaceSaved : Nat
  filesOrganized : Option Nat
  largeFiles : Option (List (Str × Nat))
  errors : List Str
deriving Repr, DecidableEq

/-- Accumulator threaded through the per-path deletion loops of the
trash cleaner (filesystem, counters, error list). -/
structure TrashAcc where
  fs : Fs
  filesDeleted : Nat
  spaceSaved : Nat
  errors : List Str
deriving Repr, DecidableEq

/-- `for (file of files) { r := deleteFile(file); if r.deleted { filesDeleted++; spaceSaved += r.size } }` -/
def deleteFilesLoop (dryRun : Bool) (acc : TrashAcc) : List Str → TrashAcc
  | [] => acc
  | p :: rest =>
    let out := deleteFile dryRun acc.fs acc.errors p
    let acc1 : TrashAcc :=
      if out.res.deleted then
        ⟨out.fs, acc.filesDeleted + 1, acc.spaceSaved + out.res.size, out.errors⟩
      else ⟨out.fs, acc.filesDeleted, acc.spaceSaved, out.errors⟩
    deleteFilesLoop dryRun acc1 rest

/-- Bottom-up empty-directory sweep: each directory is deleted only if
currently empty, and a successful deletion counts one file but adds no
space. -/
def deleteEmptyDirsLoop (dryRun : Bool) (acc : TrashAcc) : List Str → TrashAcc
  | [] => acc
  | d :: rest =>
    let acc1 : TrashAcc :=
      if isDirectoryEmpty acc.fs d then
        let out := deleteDirectory dryRun acc.fs acc.errors d
        if out.res.deleted then ⟨out.fs, acc.filesDeleted + 1, acc.spaceSaved, out.errors⟩
        else ⟨out.fs, acc.filesDeleted, acc.spaceSaved, out.errors⟩
      else acc
    deleteEmptyDirsLoop dryRun acc1 rest

/-- `TrashCleaner.cleanLinuxTrash`: delete every file under `files/`,
then bottom-up-delete empty directories there, then delete every
`info/*.trashinfo` sidecar; counts and freed bytes are accumulated and
returned. -/
def cleanLinuxTrash (cfg : CleanupConfig) (dryRun : Bool) (fs : Fs) (errors : List Str)
    (trashPath : Str) : TrashAcc :=
  let filesDir := joinP trashPath "files".toList
  let infoDir := joinP trashPath "info".toList
  let acc0 : TrashAcc := ⟨fs, 0, 0, errors⟩
  let acc1 :=
    if pathExists fs filesDir then
      let files := findFiles cfg fs [joinP (joinP filesDir "**".toList) "*".toList] []
      let a := deleteFilesLoop dryRun acc0 files
      let dirs := findDirectories cfg a.fs [joinP filesDir "**".toList] []
      deleteEmptyDirsLoop dryRun a dirs.reverse
    else acc0
  if pathExists acc1.fs infoDir then
    let infoFiles := findFiles cfg acc1.fs [joinP infoDir "*.trashinfo".toList] []
    deleteFilesLoop dryRun acc1 infoFiles
  else acc1

/-- Per-user-folder sweep of `TrashCleaner.cleanWindowsRecycleBin`. -/
def recycleUserLoop (cfg : CleanupConfig) (dryRun : Bool) (acc : TrashAcc) : List Str → TrashAcc
  | [] => acc
  | uf :: rest =>
    let files := findFiles cfg acc.fs [joinP (joinP uf "**".toList) "*".toList] []
    let a := deleteFilesLoop dryRun ⟨acc.fs, acc.filesDeleted, acc.spaceSaved, acc.errors⟩ files
    let dirs := findDirectories cfg a.fs [joinP uf "**".toList] []
    let b := deleteEmptyDirsLoop dryRun a dirs.reverse
    recycleUserLoop cfg dryRun b rest

/-- `TrashCleaner.cleanWindowsRecycleBin`: per-user (`S-*`) folders,
files first, then bottom-up empty directories. -/
def cleanWindowsRecycleBin (cfg : CleanupConfig) (dryRun : Bool) (fs : Fs) (errors : List Str)
    (recycleBinPath : Str) : TrashAcc :=
  let userFolders := findDirectories cfg fs [joinP recycleBinPath "S-*".toList] []
  recycleUserLoop cfg dryRun ⟨fs, 0, 0, errors⟩ userFolders

/-- `TrashCleaner.emptyTrashDirectory`: dispatch on the platform.  The
macOS branch accumulates its counts into the local counters; the
Windows and Linux branches call their helper and DISCARD its returned
counts, so the function reports `0/0` for those platforms (the
filesystem mutations and pushed errors persist through the shared
state). -/
def emptyTrashDirectory (cfg : CleanupConfig) (os : OSType) (dryRun : Bool) (fs : Fs)
    (errors : List Str) (trashPath : Str) : TrashAcc :=
  match os with
  | .windows =>
    let a := cleanWindowsRecycleBin cfg dryRun fs errors trashPath
    ⟨a.fs, 0, 0, a.errors⟩
  | .macos =>
    let files := findFiles cfg fs [joinP (joinP trashPath "**".toList) "*".toList] []
    let a := deleteFilesLoop dryRun ⟨fs, 0, 0, errors⟩ files
    let dirs := findDirectories cfg a.fs [joinP trashPath "**".toList] []
    deleteEmptyDirsLoop dryRun a dirs.reverse
  | .linux =>
    let a := cleanLinuxTrash cfg dryRun fs errors trashPath
    ⟨a.fs, 0, 0, a.errors⟩

/-- Loop of `TrashCleaner.cleanTrashPath`'s wildcard branch. -/
def emptyTrashLoop (cfg : CleanupConfig) (os : OSType) (dryRun : Bool) (acc : TrashAcc) :
    List Str → TrashAcc
  | [] => acc
  | p :: rest =>
    let r := emptyTrashDirectory cfg os dryRun acc.fs acc.errors p
    emptyTrashLoop cfg os dryRun
      ⟨r.fs, acc.filesDeleted + r.filesDeleted, acc.spaceSaved + r.spaceSaved, r.errors⟩ rest

/-- `TrashCleaner.cleanTrashPath`: expand wildcard roots through the
directory search, otherwise empty the root directly. -/
def cleanTrashPath (cfg : CleanupConfig) (os : OSType) (dryRun : Bool) (fs : Fs)
    (errors : List Str) (trashPath : Str) : TrashAcc :=
  if strIncludes trashPath "*".toList then
    let matching := findDirectories cfg fs [trashPath] []
    emptyTrashLoop cfg os dryRun ⟨fs, 0, 0, errors⟩ matching
  else
    if pathExists fs trashPath then emptyTrashDirectory cfg os dryRun fs errors trashPath
    else ⟨fs, 0, 0, errors⟩

/-- Loop of `TrashCleaner.clean` over the platform's trash roots. -/
def trashCleanLoop (cfg : CleanupConfig) (os : OSType) (dryRun : Bool) (acc : TrashAcc) :
    List Str → TrashAcc
  | [] => acc
  | p :: rest =>
    let acc1 : TrashAcc :=
      if pathExists acc.fs p then
        let r := cleanTrashPath cfg os dryRun acc.fs acc.errors p
        ⟨r.fs, acc.filesDeleted + r.filesDeleted, acc.spaceSaved + r.spaceSaved, r.errors⟩
      else acc
    trashCleanLoop cfg os dryRun acc1 rest

/-- `TrashCleaner.clean`: fresh error list, sweep every trash root,
return the task record. -/
def trashClean (cfg : CleanupConfig) (os : OSType) (dryRun : Bool) (fs : Fs)
    (trashPaths : List Str) : Fs × CleanupResult :=
  let a := trashCleanLoop cfg os dryRun ⟨fs, 0, 0, []⟩ trashPaths
  (a.fs, ⟨"trash".toList, a.filesDeleted, a.spaceSaved, none, none, a.errors⟩)

/-- Count-and-space result of `LargeFileFinder.deleteLargeFiles`. -/
structure LargeDelOut where
  fs : Fs
  deletedCount : Nat
  spaceSaved : Nat
  errors : List Str
deriving Repr, DecidableEq

/-- `LargeFileFinder.deleteLargeFiles`: delete each listed path,
counting successes and summing their reported sizes. -/
def deleteLargeFiles (dryRun : Bool) (fs : Fs) (errors : List Str)
    (filePaths : List Str) : LargeDelOut :=
  let a := deleteFilesLoop dryRun ⟨fs, 0, 0, errors⟩ filePaths
  ⟨a.fs, a.filesDeleted, a.spaceSaved, a.errors⟩

/-- `path.basename(p)`: the part after the last separator. -/
def basename (p : Str) : Str := (splitSlash p).getLastD []

/-- Suffix of a name starting at its last dot, if any. -/
def extnameAux : Str → Option Str
  | [] => none
  | c :: cs =>
    match extnameAux cs with
    | some e => some e
    | none => if c == '.' then some (c :: cs) else none

/-- `path.extname(name)`: from the last dot to the end, except that a
dot in the leading position yields no extension. -/
def extname (n : Str) : Str :=
  match n with
  | [] => []
  | _ :: rest =>
    match extnameAux rest with
    | some e => e
    | none => []

/-- `path.parse(name).name`: the name with its extension removed. -/
def parseName (n : Str) : Str := n.take (n.length - (extname n).length)

def digitChar (d : Nat) : Char := Char.ofNat (48 + d)

/-- Decimal rendering of a natural number (`${counter}` in a template
literal); structural on the fuel, which `n` itself always covers. -/
def natToStrAux : Nat → Nat → Str
  | 0, _ => []
  | fuel + 1, n => if n == 0 then [] else natToStrAux fuel (n / 10) ++ [digitChar (n % 10)]

def natToStr (n : Nat) : Str := if n == 0 then ['0'] else natToStrAux n n

/-- Candidate collision name: `name + " (" + counter + ")" + ext`. -/
def mkNumbered (base ext : Str) (n : Nat) : Str :=
  base ++ " (".toList ++ natToStr n ++ [')'] ++ ext

/-- Probe loop of `DownloadsOrganizer.generateUniqueFileName`: while
the candidate exists, replace it by the next numbered candidate. -/
def genUniqueAux (fs : Fs) (dirPath base ext : Str) : Nat → Nat → Str → Str
  | 0, _, unique => unique
  | fuel + 1, counter, unique =>
    if pathExists fs (joinP dirPath unique) then
      genUniqueAux fs dirPath base ext fuel (counter + 1) (mkNumbered base ext counter)
    else unique

/-- `DownloadsOrganizer.generateUniqueFileName`: starting from the file
name itself, probe increasing counters until a free name is found (the
fuel covers every probe the finite filesystem can force). -/
def generateUniqueFileName (fs : Fs) (dirPath fileName : Str) : Str :=
  genUniqueAux fs dirPath (parseName fileName) (extname fileName)
    (fs.files.length + fs.dirs.length + 2) 1 fileName

/-- `fs.ensureDir`: create the directory if missing. -/
def ensureDir (fs : Fs) (d : Str) : Fs :=
  if dirExists fs d then fs else ⟨fs.files, fs.dirs ++ [(d, true)]⟩

/-- `fs.move(src, dst)` without overwrite: fails if the destination
exists or the source is missing. -/
def moveFile (fs : Fs) (src dst : Str) : Option Fs :=
  if pathExists fs dst then none
  else
    match lookupFile fs src with
    | none => none
    | some m => some ⟨(fs.files.filter (fun e => !(e.1 == src))) ++ [(dst, m)], fs.dirs⟩

/-- `DownloadsOrganizer.getCategoryForExtension`: first entry of the
category map (declared iteration order) whose extension list contains
the lowercase extension. -/
def getCategoryForExtension (cfg : CleanupConfig) (extension : Str) : Option Str :=
  (cfg.organizeDownloads.categories.find? (fun ce => ce.2.contains extension)).map
    (fun ce => ce.1)

def orgErr (p : Str) : Str := "Failed to organize file ".toList ++ p

/-- Result of organizing one entry: filesystem, whether the entry was
counted as organized, and the error list. -/
structure OrgStep where
  fs : Fs
  organized : Bool
  errors : List Str
deriving Repr, DecidableEq

/-- `DownloadsOrganizer.organizeFile`: skip extension-less and hidden
names; look up the category; ensure the destination folder (live runs
only); on a name collision probe a unique numbered name; move (live
runs only) and report success. -/
def organizeFile (cfg : CleanupConfig) (dryRun : Bool) (fs : Fs) (errors : List Str)
    (downloadsPath filePath : Str) : OrgStep :=
  let fileName := basename filePath
  let fileExt := toLowerStr (extname fileName)
  if fileExt.isEmpty || startsWithDot fileName then ⟨fs, false, errors⟩
  else
    match getCategoryForExtension cfg fileExt with
    | none => ⟨fs, false, errors⟩
    | some category =>
      let categoryPath := joinP downloadsPath category
      let fs1 := if dryRun then fs else ensureDir fs categoryPath
      let newFilePath := joinP categoryPath fileName
      if pathExists fs1 newFilePath then
        let uniqueName := generateUniqueFileName fs1 categoryPath fileName
        let uniqueFilePath := joinP categoryPath uniqueName
        if dryRun then ⟨fs1, true, errors⟩
        else
          match moveFile fs1 filePath uniqueFilePath with
          | some fs2 => ⟨fs2, true, errors⟩
          | none => ⟨fs1, false, errors ++ [orgErr filePath]⟩
      else
        if dryRun then ⟨fs1, true, errors⟩
        else
          match moveFile fs1 filePath newFilePath with
          | some fs2 => ⟨fs2, true, errors⟩
          | none => ⟨fs1, false, errors ++ [orgErr filePath]⟩

/-- Accumulator of `DownloadsOrganizer.organize`'s per-file loop. -/
structure OrgAcc where
  fs : Fs
  filesOrganized : Nat
  errors : List Str
deriving Repr, DecidableEq

def organizeFilesLoop (cfg : CleanupConfig) (dryRun : Bool) (downloadsPath : Str)
    (acc : OrgAcc) : List Str → OrgAcc
  | [] => acc
  | f :: rest =>
    let r := organizeFile cfg dryRun acc.fs acc.errors downloadsPath f
    organizeFilesLoop cfg dryRun downloadsPath
      ⟨r.fs, acc.filesOrganized + (if r.organized then 1 else 0), r.errors⟩ rest

/-- `DownloadsOrganizer.organize`: disabled and missing-folder guards,
then organize every top-level entry of the downloads directory. -/
def organize (cfg : CleanupConfig) (dryRun : Bool) (fs : Fs) : Fs × CleanupResult :=
  if !cfg.organizeDownloads.enabled then
    (fs, ⟨"downloads".toList, 0, 0, some 0, none,
      ["Downloads organization is disabled in config".toList]⟩)
  else if !pathExists fs cfg.downloadsPath then
    (fs, ⟨"downloads".toList, 0, 0, some 0, none,
      ["Downloads folder not found: ".toList ++ cfg.downloadsPath]⟩)
  else
    let files := findFiles cfg fs [joinP cfg.downloadsPath "*".toList] []
    let a := organizeFilesLoop cfg dryRun cfg.downloadsPath ⟨fs, 0, []⟩ files
    (a.fs, ⟨"downloads".toList, 0, 0, some a.filesOrganized, none, a.errors⟩)

/-- System directory names skipped by name in
`LargeFileFinder.shouldSkipPath`. -/
def systemDirs : List Str :=
  ["System Volume Information".toList, "$RECYCLE.BIN".toList, "Windows".toList,
   "Program Files".toList, "Program Files (x86)".toList, "ProgramData".toList,
   "AppData".toList, "node_modules".toList, ".git".toList, ".svn".toList, ".hg".toList]

def windowsSkipPaths : List Str :=
  ["C:\\Windows".toList, "C:\\Program Files".toList, "C:\\Program Files (x86)".toList,
   "C:\\ProgramData".toList]

def macosSkipPaths : List Str :=
  ["/System".toList, "/Library/System".toList, "/usr/bin".toList, "/usr/sbin".toList,
   "/bin".toList, "/sbin".toList]

def linuxSkipPaths : List Str :=
  ["/bin".toList, "/sbin".toList, "/usr/bin".toList, "/usr/sbin".toList, "/lib".toList,
   "/lib64".toList, "/usr/lib".toList, "/usr/lib64".toList, "/sys".toList, "/proc".toList,
   "/dev".toList]

/-- Platform-specific system-root prefix test of
`LargeFileFinder.shouldSkipPath` (case-insensitive on Windows). -/
def osSkip : OSType → Str → Bool
  | .windows, p =>
    windowsSkipPaths.any (fun sp => (toLowerStr sp).isPrefixOf (toLowerStr p))
  | .macos, p => macosSkipPaths.any (fun sp => sp.isPrefixOf p)
  | .linux, p => linuxSkipPaths.any (fun sp => sp.isPrefixOf p)

/-- `LargeFileFinder.shouldSkipPath`: hidden names, system directory
names, platform system roots, then the configured exclusion substrings
(`fullPath.includes(exclusion)`). -/
def shouldSkipPath (cfg : CleanupConfig) (os : OSType) (fullPath itemName : Str) : Bool :=
  if startsWithDot itemName then true
  else if systemDirs.any (fun d => d == itemName) then true
  else if osSkip os fullPath then true
  else cfg.exclusions.any (fun e => strIncludes fullPath e)

/-- Directory tree used by the large-file scanner's recursive
`readdir` walk. -/
inductive FsTree where
  | file (name : Str) (size : Nat)
  | dir (name : Str) (children : List FsTree)
deriving Repr

/-- Body of `LargeFileFinder.traverseDirectory`: iterate a directory's
entries, skipping filtered ones, collecting files at or above the
threshold and recursing into subdirectories with the incremented depth;
the recursive call's entry guard `depth > 10` is inlined as
`depth + 1 > 10`.  The fuel makes the nested recursion structural. -/
def traverseList (cfg : CleanupConfig) (os : OSType) :
    Nat → Str → Nat → List FsTree → List (Str × Nat)
  | 0, _, _, _ => []
  | _ + 1, _, _, [] => []
  | fuel + 1, dirPath, depth, item :: rest =>
    (match item with
     | .file name size =>
       let itemPath := joinP dirPath name
       if shouldSkipPath cfg os itemPath name then []
       else if cfg.largeFileThreshold ≤ size then [(itemPath, size)] else []
     | .dir name children =>
       let itemPath := joinP dirPath name
       if shouldSkipPath cfg os itemPath name then []
       else if depth + 1 > 10 then []
       else traverseList cfg os fuel itemPath (depth + 1) children)
      ++ traverseList cfg os fuel dirPath depth rest

/-- `LargeFileFinder.traverseDirectory`: the recursion-depth guard and
the per-entry loop. -/
def traverseDirectory (cfg : CleanupConfig) (os : OSType) (fuel : Nat) (dirPath : Str)
    (items : List FsTree) (depth : Nat) : List (Str × Nat) :=
  if depth > 10 then [] else traverseList cfg os fuel dirPath depth items

/-- A chain of nested single-child directories ending in a leaf. -/
def nestChain : List Str → FsTree → FsTree
  | [], t => t
  | d :: ds, t => .dir d [nestChain ds t]

/-- Path of the leaf of a `nestChain`. -/
def chainPath (p : Str) : List Str → Str → Str
  | [], fn => joinP p fn
  | d :: ds, fn => chainPath (joinP p d) ds fn

/-- Every directory of the chain, and its leaf file, survives
`shouldSkipPath`. -/
def chainClear (cfg : CleanupConfig) (os : OSType) (p : Str) : List Str → Str → Bool
  | [], fn => !shouldSkipPath cfg os (joinP p fn) fn
  | d :: ds, fn => !shouldSkipPath cfg os (joinP p d) d && chainClear cfg os (joinP p d) ds fn

/-- Zero-count records pushed by the CleanupManager task boundaries. -/
def tempZero (e : Str) : CleanupResult := ⟨"temp".toList, 0, 0, none, none, [e]⟩

def cacheZero (e : Str) : CleanupResult := ⟨"cache".toList, 0, 0, none, none, [e]⟩

def browsersZero (e : Str) : CleanupResult := ⟨"browsers".toList, 0, 0, none, none, [e]⟩

def trashZero (e : Str) : CleanupResult := ⟨"trash".toList, 0, 0, none, none, [e]⟩

def downloadsZero (e : Str) : CleanupResult := ⟨"downloads".toList, 0, 0, some 0, none, [e]⟩

def largeFilesZero (e : Str) : CleanupResult :=
  ⟨"largeFiles".toList, 0, 0, none, some [], [e]⟩

/-- One task method of CleanupManager: run the task's computation on
the current filesystem; an escaping exception is caught at this
boundary and converted into the task's zero-count record carrying
exactly the one error message. -/
def runTask (zero : Str → CleanupResult) (t : Fs → Except Str (Fs × CleanupResult))
    (fs : Fs) : Fs × CleanupResult :=
  match t fs with
  | .ok r => r
  | .error e => (fs, zero e)

/-- `CleanupManager.runAllTasks`: the six tasks in their fixed order,
each isolated by its own boundary, results appended in invocation
order. -/
def runAllTasks (tTemp tCache tBrowsers tTrash tDownloads tLarge :
    Fs → Except Str (Fs × CleanupResult)) (fs0 : Fs) : Fs × List CleanupResult :=
  let s1 := runTask tempZero tTemp fs0
  let s2 := runTask cacheZero tCache s1.1
  let s3 := runTask browsersZero tBrowsers s2.1
  let s4 := runTask trashZero tTrash s3.1
  let s5 := runTask downloadsZero tDownloads s4.1
  let s6 := runTask largeFilesZero tLarge s5.1
  (s6.1, [s1.2, s2.2, s3.2, s4.2, s5.2, s6.2])

/-- Browser flags of a configuration document: a JSON object with any
subset of the four keys present. -/
structure PartialBrowsers where
  chrome : Option Bool
  firefox : Option Bool
  edge : Option Bool
  safari : Option Bool
deriving Repr, DecidableEq

structure PartialOrganize where
  enabled : Option Bool
  categories : Option (List (Str × List Str))
deriving Repr, DecidableEq

/-- A configuration document as read from disk: every recognized
top-level field may be absent, the object-valued fields may themselves
be partial, and arbitrary unknown fields may be present (the shallow
spread copies them into the merged object but nothing ever reads
them). -/
structure ConfigDoc where
  largeFileThreshold : Option Nat
  customTempPaths : Option (List Str)
  customCachePaths : Option (List Str)
  downloadsPath : Option Str
  exclusions : Option (List Str)
  browsers : Option PartialBrowsers
  organizeDownloads : Option PartialOrganize
  confirmDeletions : Option Bool
  backupBeforeDelete : Option Bool
  maxFileAge : Option Nat
  unknownFields : List (Str × Str)
deriving Repr, DecidableEq

/-- The configuration object produced by `loadConfig`'s shallow merge:
a top-level field present in the document replaces the default value
wholesale, so the object-valued fields keep the document's (possibly
partial) shape. -/
structure MergedConfig where
  largeFileThreshold : Nat
  customTempPaths : List Str
  customCachePaths : List Str
  downloadsPath : Str
  exclusions : List Str
  browsers : PartialBrowsers
  organizeDownloads : PartialOrganize
  confirmDeletions : Bool
  backupBeforeDelete : Bool
  maxFileAge : Nat
deriving Repr, DecidableEq

def allSomeBrowsers (b : Browsers) : PartialBrowsers :=
  ⟨some b.chrome, some b.firefox, some b.edge, some b.safari⟩

def allSomeOrganize (o : OrganizeDownloads) : PartialOrganize :=
  ⟨some o.enabled, some o.categories⟩

/-- `ConfigManager.createDefaultConfig`, parameterized by platform and
home directory. -/
def createDefaultConfig (os : OSType) (homeDir : Str) : CleanupConfig :=
  ⟨1024 * 1024 * 1024, [], [], joinP homeDir "Downloads".toList, [],
   ⟨true, true, true, os == OSType.macos⟩,
   ⟨true,
    [("Images".toList,
      [".jpg".toList, ".jpeg".toList, ".png".toList, ".gif".toList, ".bmp".toList,
       ".svg".toList, ".webp".toList, ".ico".toList]),
     ("Videos".toList,
      [".mp4".toList, ".avi".toList, ".mkv".toList, ".mov".toList, ".wmv".toList,
       ".flv".toList, ".webm".toList, ".m4v".toList]),
     ("Audio".toList,
      [".mp3".toList, ".wav".toList, ".flac".toList, ".aac".toList, ".ogg".toList,
       ".wma".toList, ".m4a".toList]),
     ("Documents".toList,
      [".pdf".toList, ".doc".toList, ".docx".toList, ".txt".toList, ".rtf".toList,
       ".odt".toList, ".pages".toList]),
     ("Spreadsheets".toList,
      [".xls".toList, ".xlsx".toList, ".csv".toList, ".ods".toList, ".numbers".toList]),
     ("Presentations".toList,
      [".ppt".toList, ".pptx".toList, ".odp".toList, ".key".toList]),
     ("Archives".toList,
      [".zip".toList, ".rar".toList, ".7z".toList, ".tar".toList, ".gz".toList,
       ".bz2".toList, ".xz".toList]),
     ("Installers".toList,
      [".exe".toList, ".msi".toList, ".dmg".toList, ".pkg".toList, ".deb".toList,
       ".rpm".toList, ".appimage".toList]),
     ("Code".toList,
      [".js".toList, ".ts".toList, ".html".toList, ".css".toList, ".py".toList,
       ".java".toList, ".cpp".toList, ".c".toList, ".php".toList, ".rb".toList])]⟩,
   true, false, 0⟩

/-- The shallow spread `{...defaultConfig, ...configData}` of
`ConfigManager.loadConfig`: each recognized top-level key present in
the document replaces the corresponding default wholesale; the unknown
fields influence nothing. -/
def mergeConfig (dflt : CleanupConfig) (doc : ConfigDoc) : MergedConfig :=
  ⟨doc.largeFileThreshold.getD dflt.largeFileThreshold,
   doc.customTempPaths.getD dflt.customTempPaths,
   doc.customCachePaths.getD dflt.customCachePaths,
   doc.downloadsPath.getD dflt.downloadsPath,
   doc.exclusions.getD dflt.exclusions,
   (doc.browsers.map id).getD (allSomeBrowsers dflt.browsers),
   (doc.organizeDownloads.map id).getD (allSomeOrganize dflt.organizeDownloads),
   doc.confirmDeletions.getD dflt.confirmDeletions,
   doc.backupBeforeDelete.getD dflt.backupBeforeDelete,
   doc.maxFileAge.getD dflt.maxFileAge⟩

def emptyDoc : ConfigDoc :=
  ⟨none, none, none, none, none, none, none, none, none, none, []⟩

/-- `ConfigManager.loadConfig`: a missing or unreadable configuration
file degrades to pure defaults; an existing document is shallow-merged
over the defaults. -/
def loadConfig (dflt : CleanupConfig) (doc : Option ConfigDoc) : MergedConfig :=
  match doc with
  | none => mergeConfig dflt emptyDoc
  | some d => mergeConfig dflt d

/-- A file exists and carries write permission: exactly the condition
under which a live `deleteFile` succeeds. -/
def fileDeletable (fs : Fs) (p : Str) : Bool :=
  match lookupFile fs p with
  | some m => m.writable
  | none => false

/-- A live `deleteDirectory` succeeds: the directory is removable or
does not exist at all (removal of a missing path is a no-op success). -/
def dirDeletable (fs : Fs) (d : Str) : Bool :=
  match fs.dirs.find? (fun x => x.1 == d) with
  | some x => x.2
  | none => true

/-- Default configuration on Linux with home `/home/u`: fixture used by
several concrete theorems. -/
def cfgDefaultLinux : CleanupConfig := createDefaultConfig OSType.linux "/home/u".toList

/-- Linux trash fixture of end-to-end scenario C: two regular files
under `files/` and their two `.trashinfo` sidecars under `info/`. -/
def fsTrashC : Fs :=
  ⟨[("/t/files/a.txt".toList, ⟨10, true, 0⟩), ("/t/files/b.txt".toList, ⟨20, true, 0⟩),
    ("/t/info/a.txt.trashinfo".toList, ⟨1, true, 0⟩),
    ("/t/info/b.txt.trashinfo".toList, ⟨2, true, 0⟩)],
   [("/t".toList, true), ("/t/files".toList, true), ("/t/info".toList, true)]⟩

/-- Configuration whose exclusion list protects any path containing
`precious`. -/
def cfgPrec : CleanupConfig := { cfgDefaultLinux with exclusions := ["precious".toList] }

/-- Trash fixture holding one file whose absolute path contains the
configured exclusion substring. -/
def fsPrec : Fs :=
  ⟨[("/t/files/precious.txt".toList, ⟨7, true, 0⟩)],
   [("/t".toList, true), ("/t/files".toList, true)]⟩

/-- One writable 5-byte file. -/
def fsOne : Fs := ⟨[("/w/a.txt".toList, ⟨5, true, 0⟩)], []⟩

/-- One file whose modification time is the epoch. -/
def fsAged : Fs := ⟨[("/tmp/x.log".toList, ⟨3, true, 0⟩)], []⟩

/-- Downloads fixture with a destination collision: `photo.jpg` at top
level, and both `photo.jpg` and `photo (1).jpg` already present in
`Images/`. -/
def fsCollision : Fs :=
  ⟨[("/d/photo.jpg".toList, ⟨5, true, 0⟩), ("/d/Images/photo.jpg".toList, ⟨9, true, 0⟩),
    ("/d/Images/photo (1).jpg".toList, ⟨9, true, 0⟩)],
   [("/d".toList, true), ("/d/Images".toList, true)]⟩

/-- Default configuration rooted at downloads directory `/d`. -/
def cfgDl : CleanupConfig := { cfgDefaultLinux with downloadsPath := "/d".toList }

/-- Configuration excluding any path containing `zzz`. -/
def cfgZ : CleanupConfig := { cfgDefaultLinux with exclusions := ["zzz".toList] }

/-- Ten nested directory names. -/
def chainA10 : List Str := List.replicate 10 "a".toList

/-- Eleven nested directory names. -/
def chainA11 : List Str := List.replicate 11 "a".toList

/-- Configuration document providing `browsers.chrome` only, leaving
the other three browser flags (and every other field) absent. -/
def docNested : ConfigDoc :=
  ⟨none, none, none, none, none, some ⟨some false, none, none, none⟩, none, none, none,
   none, []⟩

/-- Claim C5: deleteFile always reads the size first; under dry-run it
returns `{deleted:true}` with the real size and mutates nothing; on a
live run it verifies write access then removes the file; on any
failure it returns `{deleted:false, size:0}`, appends exactly one
descriptive error, and never raises (the model is a total function). -/
theorem deleteFile_contract (fs : Fs) (errors : List Str) (p : Str) :
    deleteFile true fs errors p = ⟨fs, ⟨true, getFileSize fs p⟩, errors⟩
    ∧ (∀ m, lookupFile fs p = some m → m.writable = true →
        deleteFile false fs errors p = ⟨removePath fs p, ⟨true, m.size⟩, errors⟩)
    ∧ (∀ m, lookupFile fs p = some m → m.writable = false →
        deleteFile false fs errors p = ⟨fs, ⟨false, 0⟩, errors ++ [deleteFileErr p]⟩)
    ∧ (lookupFile fs p = none →
        deleteFile false fs errors p = ⟨fs, ⟨false, 0⟩, errors ++ [deleteFileErr p]⟩) := by
  refine ⟨rfl, ?_, ?_, ?_⟩
  · intro m hm hw
    simp [deleteFile, getFileSize, hm, hw]
  · intro m hm hw
    simp [deleteFile, getFileSize, hm, hw]
  · intro hm
    simp [deleteFile, getFileSize, hm]

/-- Witness for C5 at a concrete writable file. -/
theorem deleteFile_contract_witness :
    deleteFile false fsOne [] "/w/a.txt".toList =
      ⟨removePath fsOne "/w/a.txt".toList, ⟨true, 5⟩, []⟩ :=
  (deleteFile_contract fsOne [] "/w/a.txt".toList).2.1 ⟨5, true, 0⟩ rfl rfl

/-- Claim C10: under dry-run, deleteFile reports `deleted=true` for
every path — including nonexistent ones, where the reported size falls
back to 0 — while the same live call fails with an error; hence a
dry-run `filesDeleted` count (here through `deleteLargeFiles`) can
exceed the live run's. -/
theorem dryRun_deleteFile_optimistic (fs : Fs) (errors : List Str) (p : Str) :
    (deleteFile true fs errors p).res.deleted = true
    ∧ (lookupFile fs p = none → (deleteFile true fs errors p).res.size = 0)
    ∧ (lookupFile fs p = none →
        (deleteFile false fs errors p).res.deleted = false
        ∧ (deleteFile false fs errors p).errors = errors ++ [deleteFileErr p])
    ∧ (lookupFile fs p = none →
        (deleteLargeFiles true fs errors [p]).deletedCount = 1
        ∧ (deleteLargeFiles false fs errors [p]).deletedCount = 0)
    ∧ (∀ m, lookupFile fs p = some m → m.writable = false →
        (deleteFile true fs errors p).res.deleted = true
        ∧ (deleteFile false fs errors p).res.deleted = false) := by
  refine ⟨rfl, ?_, ?_, ?_, ?_⟩
  · intro hm; simp [deleteFile, getFileSize, hm]
  · intro hm; simp [deleteFile, getFileSize, hm]
  · intro hm
    constructor <;>
      simp [deleteLargeFiles, deleteFilesLoop, deleteFile, getFileSize, hm]
  · intro m hm hw
    constructor
    · rfl
    · simp [deleteFile, getFileSize, hm, hw]

/-- Witness for C10 at a nonexistent path on the empty filesystem. -/
theorem dryRun_deleteFile_optimistic_witness :
    (deleteLargeFiles true ⟨[], []⟩ [] ["/ghost".toList]).deletedCount = 1
    ∧ (deleteLargeFiles false ⟨[], []⟩ [] ["/ghost".toList]).deletedCount = 0 :=
  (dryRun_deleteFile_optimistic ⟨[], []⟩ [] "/ghost".toList).2.2.2.1 rfl

/-- Claim C6: for an existing file, the age filter admits it iff
`maxFileAge = 0` or the file's age strictly exceeds `maxFileAge` days;
a file exactly `maxFileAge` days old is not admitted, one a day older
is. -/
theorem age_filter_strict (fs : Fs) (now : Int) (p : Str) (maxAge : Nat) (m : FileMeta)
    (hm : lookupFile fs p = some m) :
    (isFileOldEnough fs now p maxAge = true ↔
      (maxAge = 0 ∨ now - m.mtimeMs > (maxAge : Int) * (24 * 60 * 60 * 1000)))
    ∧ (maxAge ≠ 0 → now - m.mtimeMs = (maxAge : Int) * (24 * 60 * 60 * 1000) →
        isFileOldEnough fs now p maxAge = false)
    ∧ (now - m.mtimeMs = ((maxAge : Int) + 1) * (24 * 60 * 60 * 1000) →
        isFileOldEnough fs now p maxAge = true) := by
  unfold isFileOldEnough
  rw [hm]
  by_cases h0 : maxAge = 0
  · subst h0
    simp
  · refine ⟨?_, ?_, ?_⟩
    · simp [h0]
    · intro _ heq
      simp [h0, heq]
    · intro heq
      simp only [beq_iff_eq, h0, if_false, decide_eq_true_eq]
      rw [heq]
      have hD : (0 : Int) < 24 * 60 * 60 * 1000 := by norm_num
      nlinarith

/-- Witness for C6: with a 5-day limit, a file exactly 5 days old is
kept, one 6 days old is admitted. -/
theorem age_filter_strict_witness :
    isFileOldEnough fsAged (5 * (24 * 60 * 60 * 1000)) "/tmp/x.log".toList 5 = false
    ∧ isFileOldEnough fsAged (6 * (24 * 60 * 60 * 1000)) "/tmp/x.log".toList 5 = true :=
  ⟨(age_filter_strict fsAged (5 * (24 * 60 * 60 * 1000)) "/tmp/x.log".toList 5 ⟨3, true, 0⟩
      rfl).2.1 (by norm_num) (by norm_num),
   (age_filter_strict fsAged (6 * (24 * 60 * 60 * 1000)) "/tmp/x.log".toList 5 ⟨3, true, 0⟩
      rfl).2.2 (by norm_num)⟩

/-- Claim C2 (code bug): on the Linux trash fixture with two files and
two sidecars, the inner `cleanLinuxTrash` does delete all four entries
and computes `filesDeleted = 4`, `spaceSaved = 33`, but
`emptyTrashDirectory` discards that return value, so the task-level
result records `filesDeleted = 0`, `spaceSaved = 0`. -/
theorem linuxTrash_counts_discarded :
    (cleanLinuxTrash cfgDefaultLinux false fsTrashC [] "/t".toList).filesDeleted = 4
    ∧ (cleanLinuxTrash cfgDefaultLinux false fsTrashC [] "/t".toList).spaceSaved = 33
    ∧ (cleanLinuxTrash cfgDefaultLinux false fsTrashC [] "/t".toList).fs.files = []
    ∧ (trashClean cfgDefaultLinux OSType.linux false fsTrashC ["/t".toList]).1.files = []
    ∧ (trashClean cfgDefaultLinux OSType.linux false fsTrashC ["/t".toList]).2.filesDeleted = 0
    ∧ (trashClean cfgDefaultLinux OSType.linux false fsTrashC ["/t".toList]).2.spaceSaved = 0 := by
  exact ⟨rfl, rfl, rfl, rfl, rfl, rfl⟩

/-- Claim C1 counterexample: on a dry run, deleteFile on a nonexistent
path reports `deleted=true` (and `deleteLargeFiles` counts 1 deletion)
while the same live invocation reports `deleted=false` (0 deletions),
so dry-run counts do not always equal the live run's. -/
theorem dryRun_counts_counterexample :
    (deleteFile true ⟨[], []⟩ [] "/ghost.bin".toList).res.deleted = true
    ∧ (deleteFile false ⟨[], []⟩ [] "/ghost.bin".toList).res.deleted = false
    ∧ (deleteLargeFiles true ⟨[], []⟩ [] ["/ghost.bin".toList]).deletedCount = 1
    ∧ (deleteLargeFiles false ⟨[], []⟩ [] ["/ghost.bin".toList]).deletedCount = 0 := by
  exact ⟨rfl, rfl, rfl, rfl⟩

/-- Claim C3 counterexample: with the exclusion substring `precious`
configured, the glob-based trash sweep still deletes
`/t/files/precious.txt`, whose absolute path contains the exclusion:
glob-based operations pass exclusions to the glob engine as `ignore`
patterns, not as substrings. -/
theorem exclusion_substring_counterexample :
    strIncludes "/t/files/precious.txt".toList "precious".toList = true
    ∧ cfgPrec.exclusions = ["precious".toList]
    ∧ (cleanLinuxTrash cfgPrec false fsPrec [] "/t".toList).fs.files = []
    ∧ (cleanLinuxTrash cfgPrec false fsPrec [] "/t".toList).filesDeleted = 1 := by
  exact ⟨rfl, rfl, rfl, rfl⟩

/-- Claim C9 counterexample: a document providing `browsers.chrome`
only replaces the whole `browsers` object, so the merged
configuration's `firefox` flag is absent rather than taking its
built-in default `true`. -/
theorem config_merge_counterexample :
    (mergeConfig cfgDefaultLinux docNested).browsers.firefox = none
    ∧ cfgDefaultLinux.browsers.firefox = true
    ∧ loadConfig cfgDefaultLinux (some docNested) = mergeConfig cfgDefaultLinux docNested := by
  exact ⟨rfl, rfl, rfl⟩

/-- Claim C9 amended: the shallow merge of loadConfig gives every
missing top-level field its built-in default, while a present
top-level object replaces the default object wholesale (its missing
nested fields stay absent), and unknown fields of the document have no
effect on any recognized field. -/
theorem config_merge_amended (dflt : CleanupConfig) (doc : ConfigDoc) :
    (doc.largeFileThreshold = none →
      (mergeConfig dflt doc).largeFileThreshold = dflt.largeFileThreshold)
    ∧ (doc.customTempPaths = none →
        (mergeConfig dflt doc).customTempPaths = dflt.customTempPaths)
    ∧ (doc.customCachePaths = none →
        (mergeConfig dflt doc).customCachePaths = dflt.customCachePaths)
    ∧ (doc.downloadsPath = none → (mergeConfig dflt doc).downloadsPath = dflt.downloadsPath)
    ∧ (doc.exclusions = none → (mergeConfig dflt doc).exclusions = dflt.exclusions)
    ∧ (doc.browsers = none → (mergeConfig dflt doc).browsers = allSomeBrowsers dflt.browsers)
    ∧ (∀ pb, doc.browsers = some pb → (mergeConfig dflt doc).browsers = pb)
    ∧ (doc.organizeDownloads = none →
        (mergeConfig dflt doc).organizeDownloads = allSomeOrganize dflt.organizeDownloads)
    ∧ (∀ po, doc.organizeDownloads = some po → (mergeConfig dflt doc).organizeDownloads = po)
    ∧ (doc.confirmDeletions = none →
        (mergeConfig dflt doc).confirmDeletions = dflt.confirmDeletions)
    ∧ (doc.backupBeforeDelete = none →
        (mergeConfig dflt doc).backupBeforeDelete = dflt.backupBeforeDelete)
    ∧ (doc.maxFileAge = none → (mergeConfig dflt doc).maxFileAge = dflt.maxFileAge)
    ∧ (∀ junk, mergeConfig dflt { doc with unknownFields := junk } = mergeConfig dflt doc)
    ∧ loadConfig dflt none = mergeConfig dflt emptyDoc := by
  refine ⟨?_, ?_, ?_, ?_, ?_, ?_, ?_, ?_, ?_, ?_, ?_, ?_, ?_, rfl⟩ <;>
    first
      | (intro h; simp [mergeConfig, h])
      | (intro x h; simp [mergeConfig, h])
      | (intro x; rfl)

/-- Witness for the amended C9 on the concrete nested document. -/
theorem config_merge_amended_witness :
    (mergeConfig cfgDefaultLinux docNested).browsers = ⟨some false, none, none, none⟩
    ∧ (mergeConfig cfgDefaultLinux docNested).maxFileAge = 0 :=
  ⟨(config_merge_amended cfgDefaultLinux docNested).2.2.2.2.2.2.1
      ⟨some false, none, none, none⟩ rfl,
   (config_merge_amended cfgDefaultLinux docNested).2.2.2.2.2.2.2.2.2.2.2.1 rfl⟩

/-- Claim C8: runAllTasks executes the six tasks in the fixed order
temp, cache, browsers, trash, downloads, large-files; a failure inside
any task is converted at its boundary into that task's record with
zero counts and exactly one error message, appended in invocation
order, and never prevents the later slots from being produced (the
final slot is always computed from its own task). -/
theorem runAllTasks_isolated (t1 t2 t3 t4 t5 t6 : Fs → Except Str (Fs × CleanupResult))
    (fs0 : Fs) :
    (runAllTasks t1 t2 t3 t4 t5 t6 fs0).2.length = 6
    ∧ (∀ e, (tempZero e).filesDeleted = 0 ∧ (tempZero e).spaceSaved = 0
        ∧ (tempZero e).errors = [e])
    ∧ (∀ e, t1 fs0 = .error e →
        (runAllTasks t1 t2 t3 t4 t5 t6 fs0).2.get? 0 = some (tempZero e))
    ∧ (∀ e, t2 (runTask tempZero t1 fs0).1 = .error e →
        (runAllTasks t1 t2 t3 t4 t5 t6 fs0).2.get? 1 = some (cacheZero e))
    ∧ (∀ e, t3 (runTask cacheZero t2 (runTask tempZero t1 fs0).1).1 = .error e →
        (runAllTasks t1 t2 t3 t4 t5 t6 fs0).2.get? 2 = some (browsersZero e))
    ∧ (∀ e, t4 (runTask browsersZero t3
          (runTask cacheZero t2 (runTask tempZero t1 fs0).1).1).1 = .error e →
        (runAllTasks t1 t2 t3 t4 t5 t6 fs0).2.get? 3 = some (trashZero e))
    ∧ (∀ e, t5 (runTask trashZero t4 (runTask browsersZero t3
          (runTask cacheZero t2 (runTask tempZero t1 fs0).1).1).1).1 = .error e →
        (runAllTasks t1 t2 t3 t4 t5 t6 fs0).2.get? 4 = some (downloadsZero e))
    ∧ (∀ e, t6 (runTask downloadsZero t5 (runTask trashZero t4 (runTask browsersZero t3
          (runTask cacheZero t2 (runTask tempZero t1 fs0).1).1).1).1).1 = .error e →
        (runAllTasks t1 t2 t3 t4 t5 t6 fs0).2.get? 5 = some (largeFilesZero e))
    ∧ ((runAllTasks t1 t2 t3 t4 t5 t6 fs0).2.get? 5 =
        some (runTask largeFilesZero t6 (runTask downloadsZero t5 (runTask trashZero t4
          (runTask browsersZero t3
            (runTask cacheZero t2 (runTask tempZero t1 fs0).1).1).1).1).1).2) := by
  refine ⟨rfl, fun e => ⟨rfl, rfl, rfl⟩, ?_, ?_, ?_, ?_, ?_, ?_, rfl⟩ <;>
    · intro e he
      try simp only [runTask] at he
      simp [runAllTasks, runTask, he]

/-- Witness for C8: a run whose fourth task throws still produces six
records, with the trash slot converted to the zero record. -/
theorem runAllTasks_isolated_witness :
    (runAllTasks (fun fs => .ok (fs, tempZero "t".toList))
        (fun fs => .ok (fs, cacheZero "c".toList))
        (fun fs => .ok (fs, browsersZero "b".toList))
        (fun _ => .error "boom".toList)
        (fun fs => .ok (fs, downloadsZero "d".toList))
        (fun fs => .ok (fs, largeFilesZero "l".toList)) ⟨[], []⟩).2.get? 3 =
      some (trashZero "boom".toList)
    ∧ (runAllTasks (fun fs => .ok (fs, tempZero "t".toList))
        (fun fs => .ok (fs, cacheZero "c".toList))
        (fun fs => .ok (fs, browsersZero "b".toList))
        (fun _ => .error "boom".toList)
        (fun fs => .ok (fs, downloadsZero "d".toList))
        (fun fs => .ok (fs, largeFilesZero "l".toList)) ⟨[], []⟩).2.length = 6 :=
  ⟨(runAllTasks_isolated (fun fs => .ok (fs, tempZero "t".toList))
      (fun fs => .ok (fs, cacheZero "c".toList))
      (fun fs => .ok (fs, browsersZero "b".toList))
      (fun _ => .error "boom".toList)
      (fun fs => .ok (fs, downloadsZero "d".toList))
      (fun fs => .ok (fs, largeFilesZero "l".toList)) ⟨[], []⟩).2.2.2.2.2.1 "boom".toList rfl,
   (runAllTasks_isolated (fun fs => .ok (fs, tempZero "t".toList))
      (fun fs => .ok (fs, cacheZero "c".toList))
      (fun fs => .ok (fs, browsersZero "b".toList))
      (fun _ => .error "boom".toList)
      (fun fs => .ok (fs, downloadsZero "d".toList))
      (fun fs => .ok (fs, largeFilesZero "l".toList)) ⟨[], []⟩).1⟩

theorem traverseList_nil (cfg : CleanupConfig) (os : OSType) (fuel : Nat) (dp : Str)
    (depth : Nat) : traverseList cfg os fuel dp depth [] = [] := by
  cases fuel <;> rfl

theorem traverseList_chain (cfg : CleanupConfig) (os : OSType) (fn : Str) (sz : Nat) :
    ∀ (ds : List Str) (p : Str) (depth fuel : Nat),
      chainClear cfg os p ds fn = true →
      ds.length + 1 ≤ fuel →
      traverseList cfg os fuel p depth [nestChain ds (FsTree.file fn sz)] =
        if ds = [] ∨ depth + ds.length ≤ 10 then
          (if cfg.largeFileThreshold ≤ sz then [(chainPath p ds fn, sz)] else [])
        else [] := by
  intro ds
  induction ds with
  | nil =>
    intro p depth fuel hclear hfuel
    obtain ⟨f, rfl⟩ : ∃ f, fuel = f + 1 := ⟨fuel - 1, by omega⟩
    simp only [chainClear, Bool.not_eq_true'] at hclear
    simp [nestChain, traverseList, hclear, traverseList_nil, chainPath]
  | cons d ds ih =>
    intro p depth fuel hclear hfuel
    obtain ⟨f, rfl⟩ : ∃ f, fuel = f + 1 := ⟨fuel - 1, by omega⟩
    simp only [chainClear, Bool.and_eq_true, Bool.not_eq_true'] at hclear
    obtain ⟨hskip, hrest⟩ := hclear
    simp only [nestChain, traverseList, hskip, traverseList_nil, List.append_nil,
      Bool.false_eq_true, if_false]
    by_cases hd : depth + 1 > 10
    · rw [if_pos hd, if_neg]
      simp only [List.length_cons]
      push_neg
      exact ⟨by simp, by omega⟩
    · rw [if_neg hd, ih (joinP p d) (depth + 1) f hrest (by simp at hfuel ⊢; omega)]
      simp only [chainPath]
      refine if_congr ?_ rfl rfl
      simp only [List.length_cons]
      constructor
      · rintro (h | h)
        · subst h
          exact Or.inr (by simp; omega)
        · exact Or.inr (by omega)
      · rintro (h | h)
        · exact absurd h (List.cons_ne_nil _ _)
        · exact Or.inr (by omega)

/-- Claim C4: the large-file traversal enforces the hard depth cap of
10 levels below each seed: a file planted 11 directories below the
seed is never collected, and one planted 10 directories below (whose
chain survives the skip rules and whose size meets the threshold) is
collected. -/
theorem largeFile_depth_cap (cfg : CleanupConfig) (os : OSType) (seed fn : Str) (sz : Nat)
    (ds : List Str) (fuel : Nat)
    (hclear : chainClear cfg os seed ds fn = true)
    (hsz : cfg.largeFileThreshold ≤ sz)
    (hfuel : ds.length + 1 ≤ fuel) :
    (ds.length = 11 →
      traverseDirectory cfg os fuel seed [nestChain ds (FsTree.file fn sz)] 0 = [])
    ∧ (ds.length = 10 →
      traverseDirectory cfg os fuel seed [nestChain ds (FsTree.file fn sz)] 0 =
        [(chainPath seed ds fn, sz)]) := by
  have h := traverseList_chain cfg os fn sz ds seed 0 fuel hclear hfuel
  constructor <;> intro hlen
  · unfold traverseDirectory
    rw [if_neg (by omega), h, if_neg]
    rintro (hc | hc)
    · rw [hc] at hlen
      simp at hlen
    · omega
  · unfold traverseDirectory
    rw [if_neg (by omega), h, if_pos (Or.inr (by omega)), if_pos hsz]

/-- Witness for C4: a 1 GiB file ten directories below a home seed is
found at its chain path; the eleven-deep variant is not. -/
theorem largeFile_depth_cap_witness :
    traverseDirectory cfgDefaultLinux OSType.linux 12 "/home/u/seed".toList
      [nestChain chainA10 (FsTree.file "big.bin".toList 1073741824)] 0 =
      [(chainPath "/home/u/seed".toList chainA10 "big.bin".toList, 1073741824)]
    ∧ traverseDirectory cfgDefaultLinux OSType.linux 13 "/home/u/seed".toList
        [nestChain chainA11 (FsTree.file "big.bin".toList 1073741824)] 0 = [] :=
  ⟨(largeFile_depth_cap cfgDefaultLinux OSType.linux "/home/u/seed".toList "big.bin".toList
      1073741824 chainA10 12 (by decide) (by decide) (by decide)).2 (by decide),
   (largeFile_depth_cap cfgDefaultLinux OSType.linux "/home/u/seed".toList "big.bin".toList
      1073741824 chainA11 13 (by decide) (by decide) (by decide)).1 (by decide)⟩

theorem shouldSkipPath_false_no_excl (cfg : CleanupConfig) (os : OSType) (fp n : Str)
    (h : shouldSkipPath cfg os fp n = false) :
    ∀ e ∈ cfg.exclusions, strIncludes fp e = false := by
  intro e he
  unfold shouldSkipPath at h
  split at h
  · exact absurd h (by simp)
  · split at h
    · exact absurd h (by simp)
    · split at h
      · exact absurd h (by simp)
      · simp only [List.any_eq_false] at h
        simpa using h e he

/-- Claim C3 amended: an entry whose absolute path contains a
configured exclusion substring is never reported by the large-file
traversal (whose skip test is substring-based); in the glob-based
discovery, a configured exclusion suppresses an entry exactly when it
glob-matches the entry's whole path, so `findFiles` never returns a
path glob-matched by an exclusion. -/
theorem exclusion_precedence_amended :
    (∀ (cfg : CleanupConfig) (os : OSType) (fuel : Nat) (dirPath : Str) (depth : Nat)
        (items : List FsTree) (p : Str) (s : Nat),
        (p, s) ∈ traverseList cfg os fuel dirPath depth items →
        ∀ e ∈ cfg.exclusions, strIncludes p e = false)
    ∧ (∀ (cfg : CleanupConfig) (fs : Fs) (pats ex : List Str) (p : Str),
        cfg.exclusions.any (fun e => globMatch (normalizeSlashes e) p) = true →
        p ∉ findFiles cfg fs pats ex) := by
  constructor
  · intro cfg os fuel
    induction fuel with
    | zero =>
      intro dirPath depth items p s hmem
      simp [traverseList] at hmem
    | succ f ih =>
      intro dirPath depth items p s hmem
      match items with
      | [] => simp [traverseList] at hmem
      | item :: rest =>
        simp only [traverseList] at hmem
        rw [List.mem_append] at hmem
        rcases hmem with hmem | hmem
        · match item with
          | .file name size =>
            simp only at hmem
            by_cases hskip : shouldSkipPath cfg os (joinP dirPath name) name = true
            · simp [hskip] at hmem
            · rw [Bool.not_eq_true] at hskip
              rw [if_neg (by simp [hskip])] at hmem
              split at hmem
              · rw [List.mem_singleton] at hmem
                rw [Prod.mk.injEq] at hmem
                rw [hmem.1]
                exact shouldSkipPath_false_no_excl cfg os (joinP dirPath name) name hskip
              · simp at hmem
          | .dir name children =>
            simp only at hmem
            by_cases hskip : shouldSkipPath cfg os (joinP dirPath name) name = true
            · simp [hskip] at hmem
            · rw [Bool.not_eq_true] at hskip
              rw [if_neg (by simp [hskip])] at hmem
              split at hmem
              · simp at hmem
              · exact ih (joinP dirPath name) (depth + 1) children p s hmem
        · exact ih dirPath depth rest p s hmem
  · intro cfg fs pats ex p hany hmem
    unfold findFiles at hmem
    rw [List.mem_filter] at hmem
    obtain ⟨_, hpred⟩ := hmem
    rw [Bool.and_eq_true, Bool.not_eq_true', List.any_append, Bool.or_eq_false_iff] at hpred
    obtain ⟨_, _, hno⟩ := hpred
    rw [List.any_map] at hno
    have hany2 : cfg.exclusions.any ((fun pat => globMatch pat p) ∘ normalizeSlashes) = true :=
      hany
    rw [hno] at hany2
    exact Bool.false_ne_true hany2

/-- Witness for the amended C3 on a concrete traversal with exclusion
`zzz`. -/
theorem exclusion_precedence_amended_witness :
    strIncludes (joinP "/home/u/seed".toList "big.bin".toList) "zzz".toList = false :=
  exclusion_precedence_amended.1 cfgZ OSType.linux 2 "/home/u/seed".toList 0
    [FsTree.file "big.bin".toList 1073741824] (joinP "/home/u/seed".toList "big.bin".toList)
    1073741824 (by decide) "zzz".toList (by decide)

theorem lookupFile_ensureDir (fs : Fs) (c q : Str) :
    lookupFile (ensureDir fs c) q = lookupFile fs q := by
  unfold ensureDir
  split <;> rfl

theorem pathExists_ensureDir_ne (fs : Fs) (c q : Str) (h : q ≠ c) :
    pathExists (ensureDir fs c) q = pathExists fs q := by
  by_cases hd : dirExists fs c
  · unfold ensureDir
    rw [if_pos hd]
  · unfold ensureDir
    rw [if_neg hd]
    unfold pathExists dirExists
    simp only [List.any_append, List.any_cons, List.any_nil, Bool.or_false]
    have hcq : (c == q) = false := beq_eq_false_iff_ne.mpr (fun hc => h hc.symm)
    rw [hcq]
    simp [fileExists, lookupFile]

theorem joinP_ne_left (a b : Str) : joinP a b ≠ a := by
  intro h
  have hl := congrArg List.length h
  simp [joinP] at hl

theorem pathExists_of_lookup (fs : Fs) (p : Str) (m : FileMeta)
    (h : lookupFile fs p = some m) : pathExists fs p = true := by
  unfold pathExists fileExists
  rw [h]
  rfl

theorem moveFile_spec (fs : Fs) (src dst : Str) (m : FileMeta)
    (hsrc : lookupFile fs src = some m) (hdst : pathExists fs dst = false) :
    moveFile fs src dst =
      some ⟨(fs.files.filter (fun e => !(e.1 == src))) ++ [(dst, m)], fs.dirs⟩
    ∧ lookupFile ⟨(fs.files.filter (fun e => !(e.1 == src))) ++ [(dst, m)], fs.dirs⟩ dst
        = some m
    ∧ lookupFile ⟨(fs.files.filter (fun e => !(e.1 == src))) ++ [(dst, m)], fs.dirs⟩ src
        = none := by
  have hne : src ≠ dst := by
    intro h
    rw [h] at hsrc
    rw [pathExists_of_lookup fs dst m hsrc] at hdst
    simp at hdst
  refine ⟨?_, ?_, ?_⟩
  · unfold moveFile
    rw [hdst]
    simp [hsrc]
  · unfold lookupFile
    simp only [List.find?_append]
    have h1 : (fs.files.filter (fun e => !(e.1 == src))).find? (fun e => e.1 == dst)
        = none := by
      rw [List.find?_eq_none]
      intro x hx hbeq
      rw [List.mem_filter] at hx
      have hex : pathExists fs dst = true := by
        unfold pathExists fileExists lookupFile
        have : (fs.files.find? (fun e => e.1 == dst)).isSome = true :=
          List.find?_isSome.mpr ⟨x, hx.1, hbeq⟩
        simp [this]
      rw [hex] at hdst
      simp at hdst
    rw [h1]
    simp [List.find?]
  · unfold lookupFile
    simp only [List.find?_append]
    have h1 : (fs.files.filter (fun e => !(e.1 == src))).find? (fun e => e.1 == src)
        = none := by
      rw [List.find?_eq_none]
      intro x hx hbeq
      rw [List.mem_filter] at hx
      rw [hbeq] at hx
      simp at hx
    have h2 : ([(dst, m)].find? (fun e => e.1 == src)) = none := by
      have : (dst == src) = false := beq_eq_false_iff_ne.mpr (fun hc => hne hc.symm)
      simp [List.find?, this]
    rw [h1, h2]
    rfl

theorem organizeFile_dry_frame (cfg : CleanupConfig) (fs : Fs) (errors : List Str)
    (dp f : Str) :
    (organizeFile cfg true fs errors dp f).fs = fs
    ∧ (organizeFile cfg true fs errors dp f).errors = errors := by
  constructor <;>
    · simp only [organizeFile]
      repeat' split
      all_goals first | rfl | simp_all

theorem organizeFilesLoop_dry_fs (cfg : CleanupConfig) (dp : Str) :
    ∀ (files : List Str) (acc : OrgAcc),
      (organizeFilesLoop cfg true dp acc files).fs = acc.fs := by
  intro files
  induction files with
  | nil => intro acc; rfl
  | cons f rest ih =>
    intro acc
    rw [organizeFilesLoop]
    rw [ih]
    exact (organizeFile_dry_frame cfg acc.fs acc.errors dp f).1

/-- Claim C1 amended: under dry-run no engine operation mutates the
filesystem or the error list; and a dry-run invocation reports the same
result as the live invocation whenever the live operation would
succeed: the file exists and is writable for deleteFile, the directory
is removable (or absent) for deleteDirectory, and for the downloads
organizer the source entry exists and its destination is free (a
missing or no-category entry is reported identically in both modes). -/
theorem dryRun_frame_amended (cfg : CleanupConfig) (fs : Fs) (errors : List Str)
    (p d dp f : Str) :
    (deleteFile true fs errors p).fs = fs
    ∧ (deleteFile true fs errors p).errors = errors
    ∧ (deleteDirectory true fs errors d).fs = fs
    ∧ (deleteDirectory true fs errors d).errors = errors
    ∧ (organizeFile cfg true fs errors dp f).fs = fs
    ∧ (organizeFile cfg true fs errors dp f).errors = errors
    ∧ (organize cfg true fs).1 = fs
    ∧ (fileDeletable fs p = true →
        (deleteFile true fs errors p).res = (deleteFile false fs errors p).res)
    ∧ (dirDeletable fs d = true →
        (deleteDirectory true fs errors d).res = (deleteDirectory false fs errors d).res)
    ∧ (getCategoryForExtension cfg (toLowerStr (extname (basename f))) = none →
        (organizeFile cfg true fs errors dp f).organized
          = (organizeFile cfg false fs errors dp f).organized)
    ∧ (∀ cat m, getCategoryForExtension cfg (toLowerStr (extname (basename f))) = some cat →
        lookupFile fs f = some m →
        pathExists fs (joinP (joinP dp cat) (basename f)) = false →
        (organizeFile cfg true fs errors dp f).organized
          = (organizeFile cfg false fs errors dp f).organized) := by
  refine ⟨rfl, rfl, rfl, rfl, (organizeFile_dry_frame cfg fs errors dp f).1,
    (organizeFile_dry_frame cfg fs errors dp f).2, ?_, ?_, ?_, ?_, ?_⟩
  · simp only [organize]
    split
    · rfl
    · split
      · rfl
      · exact organizeFilesLoop_dry_fs cfg cfg.downloadsPath _ ⟨fs, 0, []⟩
  · intro h
    unfold fileDeletable at h
    cases hl : lookupFile fs p with
    | none => rw [hl] at h; exact absurd h (by simp)
    | some m =>
      rw [hl] at h
      simp only [] at h
      simp [deleteFile, getFileSize, hl, h]
  · intro h
    unfold dirDeletable at h
    cases hl : fs.dirs.find? (fun x => x.1 == d) with
    | none => simp [deleteDirectory, hl]
    | some x =>
      rw [hl] at h
      simp only [] at h
      simp [deleteDirectory, hl, h]
  · intro hcat
    by_cases hskip :
        (List.isEmpty (toLowerStr (extname (basename f))) || startsWithDot (basename f)) = true
    · simp [organizeFile, hskip]
    · simp only [organizeFile]
      rw [if_neg hskip, if_neg hskip, hcat]
  · intro cat m hcat hm hfree
    by_cases hskip :
        (List.isEmpty (toLowerStr (extname (basename f))) || startsWithDot (basename f)) = true
    · simp [organizeFile, hskip]
    · have hnotc : joinP (joinP dp cat) (basename f) ≠ joinP dp cat :=
        joinP_ne_left (joinP dp cat) (basename f)
      have hfree2 : pathExists (ensureDir fs (joinP dp cat))
          (joinP (joinP dp cat) (basename f)) = false := by
        rw [pathExists_ensureDir_ne fs (joinP dp cat) _ hnotc]
        exact hfree
      have hm2 : lookupFile (ensureDir fs (joinP dp cat)) f = some m := by
        rw [lookupFile_ensureDir]
        exact hm
      have hif1 : ∀ (a b : Fs), (if (false = true) then a else b) = b := fun a b => rfl
      have hdry : (organizeFile cfg true fs errors dp f).organized = true := by
        simp only [organizeFile]
        rw [if_neg hskip, hcat]
        simp only
        repeat' split
        all_goals first | rfl | simp_all
      have hlive : (organizeFile cfg false fs errors dp f).organized = true := by
        simp only [organizeFile]
        rw [if_neg hskip, hcat]
        simp only [hif1]
        rw [if_neg (by simp [hfree2])]
        rw [(moveFile_spec (ensureDir fs (joinP dp cat)) f
          (joinP (joinP dp cat) (basename f)) m hm2 hfree2).1]
        rfl
      rw [hdry, hlive]

/-- Witness for the amended C1: concrete dry/live agreement on the
writable fixture file; the dry run also leaves the fixture unchanged. -/
theorem dryRun_frame_amended_witness :
    (deleteFile true fsOne [] "/w/a.txt".toList).res
      = (deleteFile false fsOne [] "/w/a.txt".toList).res
    ∧ (deleteFile true fsOne [] "/w/a.txt".toList).fs = fsOne :=
  ⟨(dryRun_frame_amended cfgDefaultLinux fsOne [] "/w/a.txt".toList "/w".toList
      "/d".toList "/d/photo.jpg".toList).2.2.2.2.2.2.2.1 rfl,
   (dryRun_frame_amended cfgDefaultLinux fsOne [] "/w/a.txt".toList "/w".toList
      "/d".toList "/d/photo.jpg".toList).1⟩

theorem ensureDir_files (fs : Fs) (c : Str) : (ensureDir fs c).files = fs.files := by
  unfold ensureDir
  split <;> rfl

theorem ensureDir_dirs_le (fs : Fs) (c : Str) :
    fs.dirs.length ≤ (ensureDir fs c).dirs.length := by
  unfold ensureDir
  split
  · exact le_rfl
  · simp

theorem find?_split {α : Type} (p : α → Bool) :
    ∀ (l : List α) (x : α), l.find? p = some x →
      ∃ pre post, l = pre ++ x :: post ∧ p x = true ∧ ∀ y ∈ pre, p y = false := by
  intro l
  induction l with
  | nil =>
    intro x h
    simp [List.find?] at h
  | cons a t ih =>
    intro x h
    by_cases hpa : p a = true
    · rw [List.find?_cons_of_pos t hpa] at h
      cases h
      exact ⟨[], t, rfl, hpa, fun y hy => absurd hy (List.not_mem_nil y)⟩
    · rw [List.find?_cons_of_neg t hpa] at h
      obtain ⟨pre, post, heq, hx, hpre⟩ := ih x h
      simp only [Bool.not_eq_true] at hpa
      refine ⟨a :: pre, post, by rw [heq]; rfl, hx, ?_⟩
      intro y hy
      rcases List.mem_cons.mp hy with rfl | hy
      · exact hpa
      · exact hpre y hy

theorem genUniqueAux_eq (fs : Fs) (dirPath base ext : Str) (m : Nat) :
    ∀ (fuel counter : Nat) (unique : Str),
      counter ≤ m → m - counter < fuel →
      pathExists fs (joinP dirPath unique) = true →
      (∀ k, counter ≤ k → k < m →
        pathExists fs (joinP dirPath (mkNumbered base ext k)) = true) →
      pathExists fs (joinP dirPath (mkNumbered base ext m)) = false →
      genUniqueAux fs dirPath base ext fuel counter unique = mkNumbered base ext m := by
  intro fuel
  induction fuel with
  | zero =>
    intro counter unique hcm hfuel hexu hocc hfree
    omega
  | succ fl ih =>
    intro counter unique hcm hfuel hexu hocc hfree
    rw [genUniqueAux, if_pos hexu]
    by_cases hc : counter = m
    · subst hc
      cases fl with
      | zero => rfl
      | succ fl2 =>
        rw [genUniqueAux, if_neg (by rw [hfree]; simp)]
    · have hlt : counter < m := by omega
      exact ih (counter + 1) (mkNumbered base ext counter) (by omega) (by omega)
        (hocc counter le_rfl hlt) (fun k hk1 hk2 => hocc k (by omega) hk2) hfree

theorem ifFalseBranch {α : Type} (a b : α) : (if (false = true) then a else b) = b := rfl

/-- Claim C7: for a top-level downloads entry, the organizer leaves it
untouched without recording an error when it has no extension, is
hidden, or matches no category; otherwise the category used is the
first entry of the declared category order containing the lowercase
extension, the entry is moved into that category folder, and on a
destination collision it is renamed with the counted suffix for the
least n ≥ 1 whose name is free. -/
theorem organizeFile_spec (cfg : CleanupConfig) (fs : Fs) (errors : List Str) (dp f : Str) :
    (∀ dry, toLowerStr (extname (basename f)) = [] ∨ startsWithDot (basename f) = true →
      organizeFile cfg dry fs errors dp f = ⟨fs, false, errors⟩)
    ∧ (∀ dry, getCategoryForExtension cfg (toLowerStr (extname (basename f))) = none →
        organizeFile cfg dry fs errors dp f = ⟨fs, false, errors⟩)
    ∧ (∀ cat, getCategoryForExtension cfg (toLowerStr (extname (basename f))) = some cat →
        ∃ pre exts post,
          cfg.organizeDownloads.categories = pre ++ (cat, exts) :: post
          ∧ exts.contains (toLowerStr (extname (basename f))) = true
          ∧ ∀ ce ∈ pre, ce.2.contains (toLowerStr (extname (basename f))) = false)
    ∧ (∀ cat m,
        (toLowerStr (extname (basename f))).isEmpty = false →
        startsWithDot (basename f) = false →
        getCategoryForExtension cfg (toLowerStr (extname (basename f))) = some cat →
        lookupFile fs f = some m →
        pathExists fs (joinP (joinP dp cat) (basename f)) = false →
        (organizeFile cfg false fs errors dp f).organized = true
        ∧ (organizeFile cfg false fs errors dp f).errors = errors
        ∧ lookupFile (organizeFile cfg false fs errors dp f).fs
            (joinP (joinP dp cat) (basename f)) = some m
        ∧ lookupFile (organizeFile cfg false fs errors dp f).fs f = none)
    ∧ (∀ cat m k,
        (toLowerStr (extname (basename f))).isEmpty = false →
        startsWithDot (basename f) = false →
        getCategoryForExtension cfg (toLowerStr (extname (basename f))) = some cat →
        lookupFile fs f = some m →
        pathExists fs (joinP (joinP dp cat) (basename f)) = true →
        1 ≤ k → k ≤ fs.files.length + fs.dirs.length + 1 →
        (∀ j, 1 ≤ j → j < k →
          pathExists fs (joinP (joinP dp cat)
            (mkNumbered (parseName (basename f)) (extname (basename f)) j)) = true) →
        pathExists fs (joinP (joinP dp cat)
          (mkNumbered (parseName (basename f)) (extname (basename f)) k)) = false →
        (organizeFile cfg false fs errors dp f).organized = true
        ∧ lookupFile (organizeFile cfg false fs errors dp f).fs
            (joinP (joinP dp cat)
              (mkNumbered (parseName (basename f)) (extname (basename f)) k)) = some m
        ∧ lookupFile (organizeFile cfg false fs errors dp f).fs f = none) := by
  refine ⟨?_, ?_, ?_, ?_, ?_⟩
  · intro dry h
    simp only [organizeFile]
    rw [if_pos (by rcases h with h | h <;> simp [h])]
  · intro dry hcat
    by_cases hskip :
        (List.isEmpty (toLowerStr (extname (basename f))) || startsWithDot (basename f)) = true
    · simp only [organizeFile]
      rw [if_pos hskip]
    · simp only [organizeFile]
      rw [if_neg hskip, hcat]
  · intro cat hcat
    unfold getCategoryForExtension at hcat
    obtain ⟨ce, hfind, hce⟩ :
        ∃ ce, cfg.organizeDownloads.categories.find?
            (fun ce => ce.2.contains (toLowerStr (extname (basename f)))) = some ce
          ∧ ce.1 = cat := by
      cases hf : cfg.organizeDownloads.categories.find?
          (fun ce => ce.2.contains (toLowerStr (extname (basename f)))) with
      | none => rw [hf] at hcat; simp at hcat
      | some ce => rw [hf] at hcat; simp at hcat; exact ⟨ce, rfl, hcat⟩
    obtain ⟨pre, post, heq, hx, hpre⟩ := find?_split _ _ _ hfind
    refine ⟨pre, ce.2, post, ?_, ?_, ?_⟩
    · rw [heq, ← hce]
    · simpa using hx
    · intro y hy
      simpa using hpre y hy
  · intro cat m hne hnh hcat hm hfree
    have hskip : ¬(List.isEmpty (toLowerStr (extname (basename f)))
        || startsWithDot (basename f)) = true := by simp [hne, hnh]
    have hnotc : joinP (joinP dp cat) (basename f) ≠ joinP dp cat :=
      joinP_ne_left (joinP dp cat) (basename f)
    have hfree2 : pathExists (ensureDir fs (joinP dp cat))
        (joinP (joinP dp cat) (basename f)) = false := by
      rw [pathExists_ensureDir_ne fs (joinP dp cat) _ hnotc]
      exact hfree
    have hm2 : lookupFile (ensureDir fs (joinP dp cat)) f = some m := by
      rw [lookupFile_ensureDir]
      exact hm
    have hmv := moveFile_spec (ensureDir fs (joinP dp cat)) f
      (joinP (joinP dp cat) (basename f)) m hm2 hfree2
    have hres : organizeFile cfg false fs errors dp f =
        ⟨⟨((ensureDir fs (joinP dp cat)).files.filter (fun e => !(e.1 == f)))
            ++ [(joinP (joinP dp cat) (basename f), m)], (ensureDir fs (joinP dp cat)).dirs⟩,
          true, errors⟩ := by
      simp only [organizeFile]
      rw [if_neg hskip, hcat]
      simp only
      rw [ifFalseBranch fs (ensureDir fs (joinP dp cat))]
      rw [if_neg (by rw [hfree2]; simp)]
      rw [ifFalseBranch]
      rw [hmv.1]
    rw [hres]
    exact ⟨rfl, rfl, hmv.2.1, hmv.2.2⟩
  · intro cat m k hne hnh hcat hm hcol hk1 hkb hocc hfree
    have hskip : ¬(List.isEmpty (toLowerStr (extname (basename f)))
        || startsWithDot (basename f)) = true := by simp [hne, hnh]
    have hnotc : joinP (joinP dp cat) (basename f) ≠ joinP dp cat :=
      joinP_ne_left (joinP dp cat) (basename f)
    have hcol2 : pathExists (ensureDir fs (joinP dp cat))
        (joinP (joinP dp cat) (basename f)) = true := by
      rw [pathExists_ensureDir_ne fs (joinP dp cat) _ hnotc]
      exact hcol
    have hm2 : lookupFile (ensureDir fs (joinP dp cat)) f = some m := by
      rw [lookupFile_ensureDir]
      exact hm
    have hocc2 : ∀ j, 1 ≤ j → j < k →
        pathExists (ensureDir fs (joinP dp cat)) (joinP (joinP dp cat)
          (mkNumbered (parseName (basename f)) (extname (basename f)) j)) = true := by
      intro j hj1 hj2
      rw [pathExists_ensureDir_ne fs (joinP dp cat) _ (joinP_ne_left _ _)]
      exact hocc j hj1 hj2
    have hfree2 : pathExists (ensureDir fs (joinP dp cat)) (joinP (joinP dp cat)
        (mkNumbered (parseName (basename f)) (extname (basename f)) k)) = false := by
      rw [pathExists_ensureDir_ne fs (joinP dp cat) _ (joinP_ne_left _ _)]
      exact hfree
    have hgen : generateUniqueFileName (ensureDir fs (joinP dp cat)) (joinP dp cat)
        (basename f) = mkNumbered (parseName (basename f)) (extname (basename f)) k := by
      unfold generateUniqueFileName
      refine genUniqueAux_eq (ensureDir fs (joinP dp cat)) (joinP dp cat)
        (parseName (basename f)) (extname (basename f)) k _ 1 (basename f) hk1 ?_ hcol2
        (fun j hj1 hj2 => hocc2 j hj1 hj2) hfree2
      have h1 := ensureDir_files fs (joinP dp cat)
      have h2 := ensureDir_dirs_le fs (joinP dp cat)
      have h3 : (ensureDir fs (joinP dp cat)).files.length = fs.files.length := by rw [h1]
      omega
    have hmv := moveFile_spec (ensureDir fs (joinP dp cat)) f
      (joinP (joinP dp cat) (mkNumbered (parseName (basename f)) (extname (basename f)) k))
      m hm2 hfree2
    have hres : organizeFile cfg false fs errors dp f =
        ⟨⟨((ensureDir fs (joinP dp cat)).files.filter (fun e => !(e.1 == f)))
            ++ [(joinP (joinP dp cat)
                  (mkNumbered (parseName (basename f)) (extname (basename f)) k), m)],
            (ensureDir fs (joinP dp cat)).dirs⟩,
          true, errors⟩ := by
      simp only [organizeFile]
      rw [if_neg hskip, hcat]
      simp only
      rw [ifFalseBranch fs (ensureDir fs (joinP dp cat))]
      rw [if_pos hcol2]
      rw [ifFalseBranch]
      rw [hgen, hmv.1]
    rw [hres]
    exact ⟨rfl, hmv.2.1, hmv.2.2⟩

/-- Witness for C7: `photo.jpg` collides twice in `Images/` and is
moved as `photo (2).jpg`, the least free counted name. -/
theorem organizeFile_spec_witness :
    (organizeFile cfgDl false fsCollision [] "/d".toList "/d/photo.jpg".toList).organized
      = true
    ∧ lookupFile (organizeFile cfgDl false fsCollision [] "/d".toList
        "/d/photo.jpg".toList).fs "/d/Images/photo (2).jpg".toList = some ⟨5, true, 0⟩ := by
  have h := (organizeFile_spec cfgDl fsCollision [] "/d".toList
      "/d/photo.jpg".toList).2.2.2.2 "Images".toList ⟨5, true, 0⟩ 2 (by decide) (by decide)
    (by decide) (by decide) (by decide) (by decide) (by decide)
    (by
      intro j hj1 hj2
      have hj : j = 1 := by omega
      subst hj
      decide)
    (by decide)
  exact ⟨h.1, h.2.1⟩
